import Mathlib

set_option maxHeartbeats 1000000

/-!
Verification development for the resilient HTTP client of this repository
(httpconnection.cpp).  The executable definitions below are a shallow
embedding of `HttpConnection::send_request`, `HttpConnection::curl_code_to_http_code`,
`HttpConnection::write_headers`, `HttpConnection::PoolEntry::update_deadline`,
`HttpConnection::PoolEntry::is_connection_expired` and
`HttpConnection::PoolEntry::set_remote_ip` / `update_snmp_ip_counts`.

Modelling conventions:
  * libcurl is a black box.  One transport attempt is an `AttemptResult`:
    the `CURLcode` returned by `curl_easy_perform`, the wire status that
    `CURLINFO_RESPONSE_CODE` would report after that perform, the header
    lines delivered to the header callback and the bytes delivered to the
    write callback during that perform.  The transport oracle is a function
    `p : Nat -> AttemptResult` giving the result of the n-th attempt of the
    call (0-based).
  * only the `CURLcode` values that the source inspects are distinguished;
    every remaining value is collapsed into `otherError` (the source treats
    all of them through the `default` arm of `curl_code_to_http_code`).
  * an address (`AddrInfo::address` in the source) is represented by its
    printable string; `inet_ntop` and `HttpResolver::parse_ip_target` are
    inverse representation changes and are elided.  `CURLINFO_PRIMARY_IP`
    is an `Option String` (`none` = the getinfo call failed).
  * the SNMP `IPCountTable` is a total count function `String -> Nat`;
    a row is present exactly when its count is positive, so the source's
    "remove the row when the count reaches zero" is the identity here.
  * SAS trail events, TRC logging and the communication monitor carry no
    data flow back into the algorithm; of the observable side effects the
    model records the attempted targets, the blacklist calls, the abort
    trail event and the number of `incr_penalties` calls.
-/

/-- The `CURLcode` values distinguished by httpconnection.cpp. -/
inductive CurlCode where
  | ok
  | urlMalformat
  | notBuiltIn
  | remoteFileNotFound
  | remoteAccessDenied
  | couldntResolveProxy
  | couldntResolveHost
  | couldntConnect
  | again
  | operationTimedout
  | sendError
  | recvError
  | otherError
deriving DecidableEq

/-- A resolver target: `AddrInfo` in the source.  `addr` is the printable
address, `port` and `transport` as in the source; equality is field-wise,
as for the C++ `AddrInfo::operator==`. -/
structure AddrInfo where
  addr : String
  port : Nat
  transport : Nat
deriving DecidableEq

/-- IPPROTO_TCP, the transport the executor assigns to the sticky target. -/
def IPPROTO_TCP : Nat := 6

/-- Everything one `curl_easy_perform` call delivers back to the executor. -/
structure AttemptResult where
  rc : CurlCode
  status : Nat
  headerLines : List String
  body : String
deriving DecidableEq

/-- The `http_rc` local of the attempt loop: initialised to 0 and read from
`CURLINFO_RESPONSE_CODE` only when the perform returned `CURLE_OK`. -/
def http_rc_of (r : AttemptResult) : Nat :=
  if r.rc = CurlCode.ok then r.status else 0

/-- HttpConnection::curl_code_to_http_code.  `responseCode` is what
`CURLINFO_RESPONSE_CODE` reports at the point of the call. -/
def curl_code_to_http_code (code : CurlCode) (responseCode : Nat) : Nat :=
  match code with
  | CurlCode.ok => responseCode
  | CurlCode.urlMalformat => 400
  | CurlCode.notBuiltIn => 400
  | CurlCode.remoteFileNotFound => 404
  | CurlCode.couldntResolveProxy => 404
  | CurlCode.couldntResolveHost => 404
  | CurlCode.couldntConnect => 404
  | CurlCode.again => 404
  | _ => 500

/-- Split a character list at the first colon, returning `none` when no
colon occurs: the list analogue of `std::string::find(":")` with the two
`substr` calls of the source. -/
def breakAtColon : List Char → Option (List Char × List Char)
  | [] => none
  | c :: cs =>
    if c = ':' then some ([], cs)
    else
      match breakAtColon cs with
      | none => none
      | some (k, v) => some (c :: k, v)

/-- Split one header line at its first colon, as
`HttpConnection::write_headers` does: no colon means the whole line is the
key and the value is empty. -/
def parseHeaderLine (line : String) : String × String :=
  match breakAtColon line.data with
  | none => (line, "")
  | some (k, v) => (String.mk k, String.mk v)

/-- The C `isspace` set used by `std::remove_if(..., ::isspace)`. -/
def c_isspace (c : Char) : Bool :=
  c == ' ' || c == '\t' || c == '\n' || c == Char.ofNat 11 || c == Char.ofNat 12 || c == '\r'

/-- Erase every `isspace` character, as the source's `erase/remove_if`. -/
def stripSpace (s : String) : String :=
  String.mk (s.data.filter (fun c => !(c_isspace c)))

/-- The lowercased, space-stripped key of a header line
(`std::transform(::tolower)` followed by the `isspace` erase). -/
def normKey (line : String) : String :=
  stripSpace (String.mk ((parseHeaderLine line).1.data.map Char.toLower))

/-- The space-stripped value of a header line. -/
def normVal (line : String) : String :=
  stripSpace (parseHeaderLine line).2

/-- HttpConnection::write_headers: parse one line and store it in the
response-header map (`(*headers)[key] = val`, overwriting). -/
def write_headers (headers : String → Option String) (line : String) :
    String → Option String :=
  fun q => if q = normKey line then some (normVal line) else headers q

/-- The per-worker cache entry, `HttpConnection::PoolEntry`: the recycle
deadline, the current remote-IP statistic and the SNMP count table it
reports to. -/
structure PoolEntry where
  deadline_ms : Nat
  remote_ip : String
  table : String → Nat

/-- HttpConnection::PoolEntry::is_connection_expired: `now_ms > _deadline_ms`. -/
def is_connection_expired (deadline_ms now_ms : Nat) : Bool :=
  decide (deadline_ms < now_ms)

/-- HttpConnection::PoolEntry::update_deadline, with the exponential sample
already drawn as `interval_ms` (the source casts the sample to
`unsigned long`, hence a natural number). -/
def update_deadline (deadline_ms now_ms interval_ms : Nat) : Nat :=
  if deadline_ms = 0 ∨ deadline_ms + interval_ms < now_ms then
    now_ms + interval_ms
  else
    deadline_ms + interval_ms

/-- HttpConnection::PoolEntry::update_snmp_ip_counts: under the lock,
decrement the row of the previous non-empty IP and increment the row of the
new non-empty IP. -/
def update_snmp_ip_counts (table : String → Nat) (oldIp newIp : String) :
    String → Nat :=
  let t1 : String → Nat :=
    if oldIp ≠ "" then (fun k => if k = oldIp then table k - 1 else table k) else table
  if newIp ≠ "" then (fun k => if k = newIp then t1 k + 1 else t1 k) else t1

/-- HttpConnection::PoolEntry::set_remote_ip.  `statTableAttached` models
`_parent->_stat_table != NULL`. -/
def set_remote_ip (e : PoolEntry) (statTableAttached : Bool) (value : String) :
    PoolEntry :=
  if value = e.remote_ip then e
  else
    { e with
      remote_ip := value,
      table := if statTableAttached then update_snmp_ip_counts e.table e.remote_ip value
               else e.table }

/-- How many times `set_remote_ip` takes the process-wide lock (it is taken
exactly inside `update_snmp_ip_counts`). -/
def set_remote_ip_locks (e : PoolEntry) (statTableAttached : Bool) (value : String) :
    Nat :=
  if value = e.remote_ip then 0 else if statTableAttached then 1 else 0

/-- The port the executor assigns to the sticky candidate built from the
current peer IP: `(_port != 0) ? _port : 80`. -/
def effectivePort (port : Nat) : Nat :=
  if port ≠ 0 then port else 80

/-- The sticky-first reordering of send_request (lines 556-573): when the
connection is not being recycled and `CURLINFO_PRIMARY_IP` is available,
build `ai` from the peer IP, erase every target equal to `ai`
(`std::remove`) and, if anything was erased, re-insert `ai` at the front. -/
def stickyReorder (recycle : Bool) (primaryIp : Option String) (port : Nat)
    (targets : List AddrInfo) : List AddrInfo :=
  if recycle then targets
  else
    match primaryIp with
    | none => targets
    | some ip =>
      let ai : AddrInfo := ⟨ip, effectivePort port, IPPROTO_TCP⟩
      let pruned := targets.filter (fun t => decide (t ≠ ai))
      if pruned.length < targets.length then ai :: pruned else targets

/-- Minimum-retry duplication (lines 575-580): a single target is cloned. -/
def cloneSingle (ts : List AddrInfo) : List AddrInfo :=
  match ts with
  | [t] => [t, t]
  | other => other

/-- The candidate list the attempt loop iterates, as assembled by
send_request from the resolver's answer. -/
def assembleTargets (recycle : Bool) (primaryIp : Option String) (port : Nat)
    (resolved : List AddrInfo) : List AddrInfo :=
  cloneSingle (stickyReorder recycle primaryIp port resolved)

/-- The reason tag of the abort trail event. -/
inductive HttpErrorResponseTypes where
  | Permanent
  | Temporary
deriving DecidableEq

/-- Which counter an attempt outcome bumps, and whether it is a fatal HTTP
error, mirroring the classification block of send_request (lines 689-717). -/
structure Classified where
  inc503 : Bool
  inc504 : Bool
  incTio : Bool
  fatal : Bool
deriving DecidableEq

/-- The classification block of send_request: counters and the
`fatal_http_error` flag, from the perform result and the `http_rc` local. -/
def classify (rc : CurlCode) (http_rc : Nat) : Classified :=
  if 400 ≤ http_rc then
    if http_rc = 503 then ⟨true, false, false, false⟩
    else if http_rc = 504 then ⟨false, true, false, false⟩
    else ⟨false, false, false, true⟩
  else if rc = CurlCode.remoteFileNotFound ∨ rc = CurlCode.remoteAccessDenied then
    ⟨false, false, false, true⟩
  else if rc = CurlCode.operationTimedout ∨ rc = CurlCode.sendError ∨
          rc = CurlCode.recvError then
    ⟨false, false, true, false⟩
  else
    ⟨false, false, false, false⟩

/-- The mutable state of the attempt loop of send_request, together with the
observable side effects accumulated so far. -/
structure LoopSt where
  rc : CurlCode
  lastStatus : Nat
  num503 : Nat
  num504 : Nat
  num_timeouts_or_io_errors : Nat
  remoteIp : Option String
  attempts : List AddrInfo
  blacklisted : List AddrInfo
  abortReason : Option HttpErrorResponseTypes
  deadlineUpdated : Bool
  headers : String → Option String
  doc : String

/-- What one attempt always does before the outcome is inspected: record the
target, clear `doc` and let the perform deliver body bytes and header lines,
remember the peer IP and the perform result. -/
def stepBase (t : AddrInfo) (r : AttemptResult) (st : LoopSt) : LoopSt :=
  { st with
    rc := r.rc,
    lastStatus := r.status,
    remoteIp := some t.addr,
    attempts := st.attempts ++ [t],
    doc := r.body,
    headers := r.headerLines.foldl write_headers st.headers }

/-- The failure path of one attempt: the blacklist feedback (lines 677-686)
followed by the counter updates of the classification block. -/
def stepFail (recycle : Bool) (t : AddrInfo) (r : AttemptResult) (st : LoopSt) :
    LoopSt :=
  let st1 := stepBase t r st
  let st2 :=
    if recycle = true ∧ ¬ (400 ≤ http_rc_of r) ∧
        r.rc ≠ CurlCode.remoteFileNotFound ∧ r.rc ≠ CurlCode.remoteAccessDenied then
      { st1 with blacklisted := st1.blacklisted ++ [t] }
    else st1
  let c := classify r.rc (http_rc_of r)
  { st2 with
    num503 := st2.num503 + (if c.inc503 then 1 else 0),
    num504 := st2.num504 + (if c.inc504 then 1 else 0),
    num_timeouts_or_io_errors := st2.num_timeouts_or_io_errors + (if c.incTio then 1 else 0) }

/-- The per-target attempt loop of send_request (lines 595-733).  `i` is the
index of the next attempt, fed to the transport oracle `p`. -/
def attemptLoop (recycle : Bool) (p : Nat → AttemptResult) :
    List AddrInfo → Nat → LoopSt → LoopSt
  | [], _, st => st
  | t :: rest, i, st =>
    let r := p i
    if r.rc = CurlCode.ok ∧ http_rc_of r < 400 then
      let st1 := stepBase t r st
      { st1 with deadlineUpdated := st1.deadlineUpdated || recycle }
    else
      let st3 := stepFail recycle t r st
      if 2 ≤ st3.num503 + st3.num_timeouts_or_io_errors ∨ 1 ≤ st3.num504 ∨
          (classify r.rc (http_rc_of r)).fatal = true then
        { st3 with
          abortReason := some (if (classify r.rc (http_rc_of r)).fatal then
                                 HttpErrorResponseTypes.Permanent
                               else HttpErrorResponseTypes.Temporary) }
      else
        attemptLoop recycle p rest (i + 1) st3

/-- The initial loop state: `rc = CURLE_COULDNT_RESOLVE_HOST`,
`remote_ip = NULL`, counters zero, and the caller's out-parameters. -/
def initSt (headers0 : String → Option String) (doc0 : String) : LoopSt :=
  { rc := CurlCode.couldntResolveHost, lastStatus := 0, num503 := 0, num504 := 0,
    num_timeouts_or_io_errors := 0, remoteIp := none, attempts := [], blacklisted := [],
    abortReason := none, deadlineUpdated := false, headers := headers0, doc := doc0 }

/-- The observable outcome of one send_request call. -/
structure SendOutcome where
  code : Nat
  rc : CurlCode
  lastStatus : Nat
  num503 : Nat
  num504 : Nat
  num_timeouts_or_io_errors : Nat
  attempts : List AddrInfo
  blacklisted : List AddrInfo
  abortReason : Option HttpErrorResponseTypes
  penaltyCalls : Nat
  entry : PoolEntry
  headers : String → Option String
  doc : String

/-- HttpConnection::send_request (lines 484-786), from the point where the
resolver has answered: recycle decision, sticky-first reordering, minimum
retry duplication, the attempt loop, the load-monitor penalty, the deadline
update recorded during the loop, the remote-IP statistic update, and the
final code mapping.  `headers0`/`doc0` are the caller's out-parameters as
wired by send_put / send_post. -/
def send_request (entry : PoolEntry) (statTableAttached lmAttached : Bool)
    (now_ms interval_ms : Nat) (primaryIp : Option String) (port : Nat)
    (resolved : List AddrInfo) (p : Nat → AttemptResult)
    (headers0 : String → Option String) (doc0 : String) : SendOutcome :=
  let recycle := is_connection_expired entry.deadline_ms now_ms
  let targets := assembleTargets recycle primaryIp port resolved
  let st := attemptLoop recycle p targets 0 (initSt headers0 doc0)
  let penaltyCalls := if (2 ≤ st.num503 ∨ 1 ≤ st.num504) ∧ lmAttached = true then 1 else 0
  let entry1 :=
    if st.deadlineUpdated then
      { entry with deadline_ms := update_deadline entry.deadline_ms now_ms interval_ms }
    else entry
  let entry2 :=
    if st.rc = CurlCode.ok then set_remote_ip entry1 statTableAttached (st.remoteIp.getD "")
    else set_remote_ip entry1 statTableAttached ""
  { code := curl_code_to_http_code st.rc st.lastStatus,
    rc := st.rc, lastStatus := st.lastStatus,
    num503 := st.num503, num504 := st.num504, num_timeouts_or_io_errors := st.num_timeouts_or_io_errors,
    attempts := st.attempts, blacklisted := st.blacklisted,
    abortReason := st.abortReason, penaltyCalls := penaltyCalls,
    entry := entry2, headers := st.headers, doc := st.doc }

/-- Attempt outcomes counted as HTTP 503 by the loop. -/
def is503 (r : AttemptResult) : Bool :=
  decide (http_rc_of r = 503)

/-- Attempt outcomes counted as HTTP 504 by the loop. -/
def is504 (r : AttemptResult) : Bool :=
  decide (http_rc_of r = 504)

/-- Attempt outcomes counted as timeouts or I/O errors by the loop. -/
def isTio (r : AttemptResult) : Bool :=
  decide (r.rc = CurlCode.operationTimedout ∨ r.rc = CurlCode.sendError ∨
          r.rc = CurlCode.recvError)

/-- Number of attempt indices in `s, s+1, ..., s+n-1` whose result satisfies `q`. -/
def cntIdx (q : AttemptResult → Bool) (p : Nat → AttemptResult) (s n : Nat) : Nat :=
  (List.range' s n).countP (fun j => q (p j))

/-- The attempt succeeded: the perform returned `CURLE_OK` and the wire
status is below 400. -/
def attemptSuccess (rc : CurlCode) (status : Nat) : Prop :=
  rc = CurlCode.ok ∧ status < 400

instance (rc : CurlCode) (status : Nat) : Decidable (attemptSuccess rc status) := by
  unfold attemptSuccess; infer_instance

/-- The attempt raised the `fatal_http_error` flag: an HTTP status at or
above 400 other than 503/504, or a remote-file-not-found /
remote-access-denied transport signal. -/
def attemptFatal (rc : CurlCode) (status : Nat) : Prop :=
  (rc = CurlCode.ok ∧ 400 ≤ status ∧ status ≠ 503 ∧ status ≠ 504) ∨
  rc = CurlCode.remoteFileNotFound ∨ rc = CurlCode.remoteAccessDenied

instance (rc : CurlCode) (status : Nat) : Decidable (attemptFatal rc status) := by
  unfold attemptFatal; infer_instance

/-- The condition under which the loop body calls `_resolver->blacklist`,
expressed on the perform result alone: a fresh connection was forced and the
transport failed with anything except remote-file-not-found or
remote-access-denied. -/
def blacklistCondB (recycle : Bool) (r : AttemptResult) : Bool :=
  recycle && decide (r.rc ≠ CurlCode.ok) &&
    decide (r.rc ≠ CurlCode.remoteFileNotFound) &&
    decide (r.rc ≠ CurlCode.remoteAccessDenied)

/-- The blacklist calls the loop makes while walking `ts`, with `i` the
index of the first attempt. -/
def blacklistedExpected (recycle : Bool) (p : Nat → AttemptResult) :
    Nat → List AddrInfo → List AddrInfo
  | _, [] => []
  | i, t :: rest =>
    (if blacklistCondB recycle (p i) then [t] else []) ++
      blacklistedExpected recycle p (i + 1) rest

/-- All header lines delivered during attempts `s, ..., s+n-1`, in order. -/
def linesOf (p : Nat → AttemptResult) (s n : Nat) : List String :=
  ((List.range' s n).map (fun j => (p j).headerLines)).flatten

/-- The loop state send_request ends with: an abbreviation for the attempt
loop run on the assembled candidate list from the initial state. -/
def callLoop (entry : PoolEntry) (now_ms : Nat) (primaryIp : Option String)
    (port : Nat) (resolved : List AddrInfo) (p : Nat → AttemptResult)
    (headers0 : String → Option String) (doc0 : String) : LoopSt :=
  attemptLoop (is_connection_expired entry.deadline_ms now_ms) p
    (assembleTargets (is_connection_expired entry.deadline_ms now_ms) primaryIp port
      resolved) 0 (initSt headers0 doc0)

/-- A fresh cache entry: deadline 0, no remote IP, empty count table. -/
def entry0 : PoolEntry := ⟨0, "", fun _ => 0⟩

/-- An empty response-header out-parameter. -/
def noHeaders : String → Option String := fun _ => none

/-- Concrete resolver targets used in concrete runs. -/
def tgtA : AddrInfo := ⟨"10.0.0.1", 80, 6⟩

def tgtB : AddrInfo := ⟨"10.0.0.2", 80, 6⟩

def tgtP1 : AddrInfo := ⟨"10.0.0.2", 8080, 6⟩

def tgtP2 : AddrInfo := ⟨"10.0.0.1", 8080, 6⟩

/-- Transport oracles used in concrete runs. -/
def perfOk200 : Nat → AttemptResult := fun _ => ⟨CurlCode.ok, 200, [], "ok"⟩

def perf503 : Nat → AttemptResult := fun _ => ⟨CurlCode.ok, 503, [], ""⟩

def perfConnFail : Nat → AttemptResult := fun _ => ⟨CurlCode.couldntConnect, 0, [], ""⟩

def perfFatal400 : Nat → AttemptResult := fun _ => ⟨CurlCode.ok, 400, [], ""⟩

def perfTimeoutThenOk : Nat → AttemptResult := fun n =>
  if n = 0 then ⟨CurlCode.operationTimedout, 0, [], ""⟩
  else ⟨CurlCode.ok, 200, [], "b"⟩

def perfHdrs : Nat → AttemptResult := fun n =>
  if n = 0 then ⟨CurlCode.ok, 503, ["X-First: a"], "body1"⟩
  else ⟨CurlCode.ok, 200, ["X-Second: b"], "body2"⟩

theorem cntIdx_zero (q : AttemptResult → Bool) (p : Nat → AttemptResult) (s : Nat) :
    cntIdx q p s 0 = 0 := rfl

theorem cntIdx_succ (q : AttemptResult → Bool) (p : Nat → AttemptResult) (s n : Nat) :
    cntIdx q p s (n + 1) = cntIdx q p (s + 1) n + (if q (p s) then 1 else 0) := by
  simp [cntIdx, List.range'_succ, List.countP_cons]

theorem linesOf_zero (p : Nat → AttemptResult) (s : Nat) : linesOf p s 0 = [] := rfl

theorem linesOf_succ (p : Nat → AttemptResult) (s n : Nat) :
    linesOf p s (n + 1) = (p s).headerLines ++ linesOf p (s + 1) n := by
  simp [linesOf, List.range'_succ]

theorem attemptSuccess_iff (r : AttemptResult) :
    attemptSuccess r.rc r.status ↔ (r.rc = CurlCode.ok ∧ http_rc_of r < 400) := by
  rcases r with ⟨rc, status, hl, b⟩
  cases rc <;> simp [attemptSuccess, http_rc_of]

theorem classify_inc503 (r : AttemptResult) :
    (classify r.rc (http_rc_of r)).inc503 = is503 r := by
  rcases r with ⟨rc, status, hl, b⟩
  cases rc <;> simp [classify, http_rc_of, is503] <;> split_ifs <;> simp_all <;> omega

theorem classify_inc504 (r : AttemptResult) :
    (classify r.rc (http_rc_of r)).inc504 = is504 r := by
  rcases r with ⟨rc, status, hl, b⟩
  cases rc <;> simp [classify, http_rc_of, is504] <;> split_ifs <;> simp_all <;> omega

theorem classify_incTio (r : AttemptResult) :
    (classify r.rc (http_rc_of r)).incTio = isTio r := by
  rcases r with ⟨rc, status, hl, b⟩
  cases rc <;> simp [classify, http_rc_of, isTio] <;> split_ifs <;> simp_all <;> omega

theorem classify_fatal_iff (r : AttemptResult) :
    (classify r.rc (http_rc_of r)).fatal = true ↔ attemptFatal r.rc r.status := by
  rcases r with ⟨rc, status, hl, b⟩
  cases rc <;> simp [classify, http_rc_of, attemptFatal] <;> split_ifs <;>
    simp_all <;> omega

theorem stepBase_fields (t : AddrInfo) (r : AttemptResult) (st : LoopSt) :
    (stepBase t r st).rc = r.rc ∧ (stepBase t r st).lastStatus = r.status ∧
    (stepBase t r st).remoteIp = some t.addr ∧
    (stepBase t r st).attempts = st.attempts ++ [t] ∧
    (stepBase t r st).doc = r.body ∧
    (stepBase t r st).headers = r.headerLines.foldl write_headers st.headers ∧
    (stepBase t r st).num503 = st.num503 ∧ (stepBase t r st).num504 = st.num504 ∧
    (stepBase t r st).num_timeouts_or_io_errors = st.num_timeouts_or_io_errors ∧
    (stepBase t r st).blacklisted = st.blacklisted ∧
    (stepBase t r st).abortReason = st.abortReason ∧
    (stepBase t r st).deadlineUpdated = st.deadlineUpdated := by
  refine ⟨rfl, rfl, rfl, rfl, rfl, rfl, rfl, rfl, rfl, rfl, rfl, rfl⟩

theorem stepFail_rc (recycle : Bool) (t : AddrInfo) (r : AttemptResult) (st : LoopSt) :
    (stepFail recycle t r st).rc = r.rc := by
  unfold stepFail; split <;> rfl

theorem stepFail_lastStatus (recycle : Bool) (t : AddrInfo) (r : AttemptResult)
    (st : LoopSt) : (stepFail recycle t r st).lastStatus = r.status := by
  unfold stepFail; split <;> rfl

theorem stepFail_remoteIp (recycle : Bool) (t : AddrInfo) (r : AttemptResult)
    (st : LoopSt) : (stepFail recycle t r st).remoteIp = some t.addr := by
  unfold stepFail; split <;> rfl

theorem stepFail_attempts (recycle : Bool) (t : AddrInfo) (r : AttemptResult)
    (st : LoopSt) : (stepFail recycle t r st).attempts = st.attempts ++ [t] := by
  unfold stepFail; split <;> rfl

theorem stepFail_doc (recycle : Bool) (t : AddrInfo) (r : AttemptResult)
    (st : LoopSt) : (stepFail recycle t r st).doc = r.body := by
  unfold stepFail; split <;> rfl

theorem stepFail_headers (recycle : Bool) (t : AddrInfo) (r : AttemptResult)
    (st : LoopSt) :
    (stepFail recycle t r st).headers = r.headerLines.foldl write_headers st.headers := by
  unfold stepFail; split <;> rfl

theorem stepFail_abortReason (recycle : Bool) (t : AddrInfo) (r : AttemptResult)
    (st : LoopSt) : (stepFail recycle t r st).abortReason = st.abortReason := by
  unfold stepFail; split <;> rfl

theorem stepFail_deadlineUpdated (recycle : Bool) (t : AddrInfo) (r : AttemptResult)
    (st : LoopSt) : (stepFail recycle t r st).deadlineUpdated = st.deadlineUpdated := by
  unfold stepFail; split <;> rfl

theorem stepFail_num503 (recycle : Bool) (t : AddrInfo) (r : AttemptResult)
    (st : LoopSt) :
    (stepFail recycle t r st).num503 = st.num503 + (if is503 r then 1 else 0) := by
  unfold stepFail
  rw [← classify_inc503]
  split <;> rfl

theorem stepFail_num504 (recycle : Bool) (t : AddrInfo) (r : AttemptResult)
    (st : LoopSt) :
    (stepFail recycle t r st).num504 = st.num504 + (if is504 r then 1 else 0) := by
  unfold stepFail
  rw [← classify_inc504]
  split <;> rfl

theorem stepFail_num_timeouts_or_io_errors (recycle : Bool) (t : AddrInfo) (r : AttemptResult)
    (st : LoopSt) :
    (stepFail recycle t r st).num_timeouts_or_io_errors
      = st.num_timeouts_or_io_errors + (if isTio r then 1 else 0) := by
  unfold stepFail
  rw [← classify_incTio]
  split <;> rfl

theorem stepFail_blacklisted (recycle : Bool) (t : AddrInfo) (r : AttemptResult)
    (st : LoopSt) (hfail : ¬ (r.rc = CurlCode.ok ∧ http_rc_of r < 400)) :
    (stepFail recycle t r st).blacklisted
      = st.blacklisted ++ (if blacklistCondB recycle r then [t] else []) := by
  have hiff : (recycle = true ∧ ¬ (400 ≤ http_rc_of r) ∧
      r.rc ≠ CurlCode.remoteFileNotFound ∧ r.rc ≠ CurlCode.remoteAccessDenied) ↔
      blacklistCondB recycle r = true := by
    constructor
    · rintro ⟨h1, h2, h3, h4⟩
      have hok : r.rc ≠ CurlCode.ok := by
        intro h
        apply hfail
        refine ⟨h, ?_⟩
        simp only [http_rc_of, if_pos h] at h2 ⊢
        omega
      simp [blacklistCondB, h1, hok, h3, h4]
    · intro hb
      simp only [blacklistCondB, Bool.and_eq_true, decide_eq_true_eq] at hb
      refine ⟨hb.1.1.1, ?_, hb.1.2, hb.2⟩
      simp only [http_rc_of, if_neg hb.1.1.2]
      omega
  simp only [stepFail]
  by_cases hc : recycle = true ∧ ¬ (400 ≤ http_rc_of r) ∧
      r.rc ≠ CurlCode.remoteFileNotFound ∧ r.rc ≠ CurlCode.remoteAccessDenied
  · rw [if_pos hc, if_pos (hiff.mp hc)]
    simp [stepBase]
  · rw [if_neg hc]
    have hb : blacklistCondB recycle r = false := by
      rcases Bool.eq_false_or_eq_true (blacklistCondB recycle r) with h | h
      · exact absurd (hiff.mpr h) hc
      · exact h
    rw [hb]
    simp [stepBase]

theorem attemptLoop_nil (recycle : Bool) (p : Nat → AttemptResult) (i : Nat)
    (st : LoopSt) : attemptLoop recycle p [] i st = st := rfl

theorem attemptLoop_cons_success (recycle : Bool) (p : Nat → AttemptResult)
    (t : AddrInfo) (rest : List AddrInfo) (i : Nat) (st : LoopSt)
    (h : (p i).rc = CurlCode.ok ∧ http_rc_of (p i) < 400) :
    attemptLoop recycle p (t :: rest) i st
      = { stepBase t (p i) st with
          deadlineUpdated := (stepBase t (p i) st).deadlineUpdated || recycle } := by
  simp only [attemptLoop]
  rw [if_pos h]

theorem attemptLoop_cons_fail_stop (recycle : Bool) (p : Nat → AttemptResult)
    (t : AddrInfo) (rest : List AddrInfo) (i : Nat) (st : LoopSt)
    (h : ¬ ((p i).rc = CurlCode.ok ∧ http_rc_of (p i) < 400))
    (hstop : 2 ≤ (stepFail recycle t (p i) st).num503 +
        (stepFail recycle t (p i) st).num_timeouts_or_io_errors ∨
      1 ≤ (stepFail recycle t (p i) st).num504 ∨
      (classify (p i).rc (http_rc_of (p i))).fatal = true) :
    attemptLoop recycle p (t :: rest) i st
      = { stepFail recycle t (p i) st with
          abortReason := some (if (classify (p i).rc (http_rc_of (p i))).fatal then
                                 HttpErrorResponseTypes.Permanent
                               else HttpErrorResponseTypes.Temporary) } := by
  simp only [attemptLoop]
  rw [if_neg h, if_pos hstop]

theorem attemptLoop_cons_fail_cont (recycle : Bool) (p : Nat → AttemptResult)
    (t : AddrInfo) (rest : List AddrInfo) (i : Nat) (st : LoopSt)
    (h : ¬ ((p i).rc = CurlCode.ok ∧ http_rc_of (p i) < 400))
    (hstop : ¬ (2 ≤ (stepFail recycle t (p i) st).num503 +
        (stepFail recycle t (p i) st).num_timeouts_or_io_errors ∨
      1 ≤ (stepFail recycle t (p i) st).num504 ∨
      (classify (p i).rc (http_rc_of (p i))).fatal = true)) :
    attemptLoop recycle p (t :: rest) i st
      = attemptLoop recycle p rest (i + 1) (stepFail recycle t (p i) st) := by
  simp only [attemptLoop]
  rw [if_neg h, if_neg hstop]

theorem getLast?_cons_of_ne_nil {α : Type} (a : α) (l : List α) (h : l ≠ []) :
    (a :: l).getLast? = l.getLast? := by
  cases l with
  | nil => exact absurd rfl h
  | cons b m => simp [List.getLast?_cons_cons]

theorem take_ne_nil {α : Type} (l : List α) (k : Nat) (h1 : 1 ≤ k)
    (h2 : 1 ≤ l.length) : l.take k ≠ [] := by
  cases l with
  | nil => simp at h2
  | cons a m =>
    cases k with
    | zero => omega
    | succ n => simp

/-- The complete behaviour of the attempt loop over a candidate list: the
number `k` of attempts actually made, the accumulated counters as counts over
the attempted indices, the final perform result carried out of the loop, the
blacklist calls, the header/body out-parameter evolution, the exit
characterisation (success, stop rule, or exhaustion) and the abort trail
event, and the fact that every non-final attempt neither succeeded nor
triggered the stopping rule. -/
theorem attemptLoop_facts (recycle : Bool) (p : Nat → AttemptResult) :
    ∀ (ts : List AddrInfo) (i : Nat) (st stq : LoopSt),
      stq = attemptLoop recycle p ts i st →
      st.abortReason = none →
      st.num503 + st.num_timeouts_or_io_errors ≤ 1 →
      st.num504 = 0 →
      ∃ k, k ≤ ts.length ∧
        stq.attempts = st.attempts ++ ts.take k ∧
        (ts ≠ [] → 1 ≤ k) ∧
        (k = 0 → stq = st) ∧
        stq.num503 = st.num503 + cntIdx is503 p i k ∧
        stq.num504 = st.num504 + cntIdx is504 p i k ∧
        stq.num_timeouts_or_io_errors = st.num_timeouts_or_io_errors + cntIdx isTio p i k ∧
        (1 ≤ k → stq.rc = (p (i + k - 1)).rc ∧ stq.lastStatus = (p (i + k - 1)).status ∧
          stq.doc = (p (i + k - 1)).body ∧
          stq.remoteIp = ((ts.take k).getLast?).map AddrInfo.addr) ∧
        stq.blacklisted = st.blacklisted ++ blacklistedExpected recycle p i (ts.take k) ∧
        stq.headers = (linesOf p i k).foldl write_headers st.headers ∧
        (stq.abortReason = none →
          stq.num503 + stq.num_timeouts_or_io_errors ≤ 1 ∧ stq.num504 = 0 ∧
          (attemptSuccess stq.rc stq.lastStatus ∨ k = ts.length)) ∧
        (∀ a, stq.abortReason = some a →
          ¬ attemptSuccess stq.rc stq.lastStatus ∧
          (attemptFatal stq.rc stq.lastStatus ∨ 2 ≤ stq.num503 + stq.num_timeouts_or_io_errors ∨
            1 ≤ stq.num504) ∧
          (a = HttpErrorResponseTypes.Permanent ↔ attemptFatal stq.rc stq.lastStatus)) ∧
        (∀ j, j + 1 < k →
          ¬ attemptSuccess (p (i + j)).rc (p (i + j)).status ∧
          ¬ attemptFatal (p (i + j)).rc (p (i + j)).status ∧
          st.num503 + cntIdx is503 p i (j + 1) +
            (st.num_timeouts_or_io_errors + cntIdx isTio p i (j + 1)) ≤ 1 ∧
          st.num504 + cntIdx is504 p i (j + 1) = 0) := by
  intro ts
  induction ts with
  | nil =>
    intro i st stq hst hab hc1 hc0
    subst hst
    refine ⟨0, Nat.le_refl 0, by simp, fun h => absurd rfl h, fun _ => rfl,
      by simp [cntIdx_zero], by simp [cntIdx_zero], by simp [cntIdx_zero],
      fun h => absurd h (by omega), by simp [blacklistedExpected],
      by simp [linesOf_zero], fun _ => ⟨hc1, hc0, Or.inr rfl⟩, ?_, fun j hj => absurd hj (by omega)⟩
    intro a ha
    rw [hab] at ha
    cases ha
  | cons t rest ih =>
    intro i st stq hst hab hc1 hc0
    by_cases hsucc : (p i).rc = CurlCode.ok ∧ http_rc_of (p i) < 400
    · -- the attempt succeeded: the loop breaks after this attempt
      subst hst
      rw [attemptLoop_cons_success recycle p t rest i st hsucc]
      have hlt : (p i).status < 400 := by
        have := hsucc.2
        simpa [http_rc_of, hsucc.1] using this
      have h3 : is503 (p i) = false := by
        simp only [is503, http_rc_of, if_pos hsucc.1, decide_eq_false_iff_not]
        omega
      have h4 : is504 (p i) = false := by
        simp only [is504, http_rc_of, if_pos hsucc.1, decide_eq_false_iff_not]
        omega
      have hT : isTio (p i) = false := by
        simp [isTio, hsucc.1]
      refine ⟨1, by simp, by simp [stepBase], fun _ => Nat.le_refl 1,
        fun h => absurd h (by omega), ?_, ?_, ?_, ?_, ?_, ?_, ?_, ?_, fun j hj => absurd hj (by omega)⟩
      · simp [stepBase, cntIdx_succ, cntIdx_zero, h3]
      · simp [stepBase, cntIdx_succ, cntIdx_zero, h4]
      · simp [stepBase, cntIdx_succ, cntIdx_zero, hT]
      · intro _
        refine ⟨by simp [stepBase], by simp [stepBase], by simp [stepBase], ?_⟩
        simp [stepBase]
      · simp [stepBase, blacklistedExpected, blacklistCondB, hsucc.1]
      · simp [stepBase, linesOf_succ, linesOf_zero]
      · intro _
        exact ⟨by simpa [stepBase] using hc1, by simpa [stepBase] using hc0,
          Or.inl ⟨by simp [stepBase, hsucc.1], by simpa [stepBase] using hlt⟩⟩
      · intro a ha
        simp only [stepBase] at ha
        rw [hab] at ha
        cases ha
    · -- the attempt failed
      have e3 := stepFail_num503 recycle t (p i) st
      have e4 := stepFail_num504 recycle t (p i) st
      have eT := stepFail_num_timeouts_or_io_errors recycle t (p i) st
      have eBL := stepFail_blacklisted recycle t (p i) st hsucc
      have eRC := stepFail_rc recycle t (p i) st
      have eLS := stepFail_lastStatus recycle t (p i) st
      have eDC := stepFail_doc recycle t (p i) st
      have eRI := stepFail_remoteIp recycle t (p i) st
      have eAT := stepFail_attempts recycle t (p i) st
      have eHD := stepFail_headers recycle t (p i) st
      have eAB := stepFail_abortReason recycle t (p i) st
      have hnosucc : ¬ attemptSuccess (p i).rc (p i).status :=
        fun h => hsucc ((attemptSuccess_iff (p i)).mp h)
      by_cases hstop : 2 ≤ (stepFail recycle t (p i) st).num503 +
          (stepFail recycle t (p i) st).num_timeouts_or_io_errors ∨
        1 ≤ (stepFail recycle t (p i) st).num504 ∨
        (classify (p i).rc (http_rc_of (p i))).fatal = true
      · -- stop rule fires: abort event, loop breaks
        subst hst
        rw [attemptLoop_cons_fail_stop recycle p t rest i st hsucc hstop]
        refine ⟨1, by simp, ?_, fun _ => Nat.le_refl 1, fun h => absurd h (by omega),
          ?_, ?_, ?_, ?_, ?_, ?_, ?_, ?_, fun j hj => absurd hj (by omega)⟩
        · simpa using eAT
        · simpa [cntIdx_succ, cntIdx_zero] using e3
        · simpa [cntIdx_succ, cntIdx_zero] using e4
        · simpa [cntIdx_succ, cntIdx_zero] using eT
        · intro _
          refine ⟨by simpa using eRC, by simpa using eLS, by simpa using eDC, ?_⟩
          simpa using eRI
        · simpa [blacklistedExpected] using eBL
        · simpa [linesOf_succ, linesOf_zero] using eHD
        · intro h
          simp at h
        · intro a ha
          simp only [Option.some.injEq] at ha
          refine ⟨by simpa [eRC, eLS] using hnosucc, ?_, ?_⟩
          · rcases hstop with h | h | h
            · exact Or.inr (Or.inl (by simpa using h))
            · exact Or.inr (Or.inr (by simpa using h))
            · exact Or.inl (by
                have := (classify_fatal_iff (p i)).mp h
                simpa [eRC, eLS] using this)
          · cases hfat : (classify (p i).rc (http_rc_of (p i))).fatal with
            | true =>
              constructor
              · intro _
                have := (classify_fatal_iff (p i)).mp hfat
                simpa [eRC, eLS] using this
              · intro _
                rw [← ha]
                simp [hfat]
            | false =>
              constructor
              · intro hP
                rw [← ha] at hP
                simp [hfat] at hP
              · intro hf
                have : (classify (p i).rc (http_rc_of (p i))).fatal = true :=
                  (classify_fatal_iff (p i)).mpr (by simpa [eRC, eLS] using hf)
                rw [this] at hfat
                cases hfat
      · -- no stop: the loop continues with the next target
        push_neg at hstop
        obtain ⟨hs1, hs2, hs3⟩ := hstop
        have hab2 : (stepFail recycle t (p i) st).abortReason = none := eAB.trans hab
        have h1a : (stepFail recycle t (p i) st).num503 +
            (stepFail recycle t (p i) st).num_timeouts_or_io_errors ≤ 1 := by omega
        have h0a : (stepFail recycle t (p i) st).num504 = 0 := by omega
        have hnfatB : (classify (p i).rc (http_rc_of (p i))).fatal = false := by
          cases h : (classify (p i).rc (http_rc_of (p i))).fatal with
          | true => exact absurd h hs3
          | false => rfl
        have hnfat : ¬ attemptFatal (p i).rc (p i).status := by
          intro hf
          have := (classify_fatal_iff (p i)).mpr hf
          rw [this] at hnfatB
          cases hnfatB
        subst hst
        rw [attemptLoop_cons_fail_cont recycle p t rest i st hsucc
          (by rw [not_or, not_or]; exact ⟨by omega, by omega, by simp [hnfatB]⟩)]
        obtain ⟨k, hkle, hatt, hne, hk0, h503, h504, htio, hfin, hbl, hhd, hexit,
          habort, hmid⟩ :=
          ih (i + 1) (stepFail recycle t (p i) st) _ rfl hab2 h1a h0a
        have hc3 : cntIdx is503 p i (k + 1)
            = cntIdx is503 p (i + 1) k + (if is503 (p i) then 1 else 0) :=
          cntIdx_succ is503 p i k
        have hc4 : cntIdx is504 p i (k + 1)
            = cntIdx is504 p (i + 1) k + (if is504 (p i) then 1 else 0) :=
          cntIdx_succ is504 p i k
        have hcT : cntIdx isTio p i (k + 1)
            = cntIdx isTio p (i + 1) k + (if isTio (p i) then 1 else 0) :=
          cntIdx_succ isTio p i k
        refine ⟨k + 1, by simp; omega, ?_, fun _ => by omega, fun h => absurd h (by omega),
          ?_, ?_, ?_, ?_, ?_, ?_, ?_, habort, ?_⟩
        · rw [hatt, eAT, List.take_succ_cons]
          simp
        · rw [h503, e3, hc3]
          omega
        · rw [h504, e4, hc4]
          omega
        · rw [htio, eT, hcT]
          omega
        · intro _
          rcases Nat.eq_zero_or_pos k with hk | hk
          · subst hk
            have hself := hk0 rfl
            rw [hself]
            refine ⟨by simpa using eRC, by simpa using eLS, by simpa using eDC, ?_⟩
            simpa using eRI
          · obtain ⟨frc, fls, fdc, fri⟩ := hfin hk
            have hidx : i + 1 + k - 1 = i + (k + 1) - 1 := by omega
            rw [hidx] at frc fls fdc
            refine ⟨frc, fls, fdc, ?_⟩
            rw [fri, List.take_succ_cons,
              getLast?_cons_of_ne_nil t (rest.take k) (take_ne_nil rest k hk (by omega))]
        · rw [hbl, eBL, List.take_succ_cons]
          simp [blacklistedExpected, List.append_assoc]
        · rw [hhd, eHD, linesOf_succ, List.foldl_append]
        · intro h
          obtain ⟨b1, b2, bs⟩ := hexit h
          refine ⟨b1, b2, ?_⟩
          rcases bs with bs | bs
          · exact Or.inl bs
          · exact Or.inr (by simp [bs])
        · intro j hj
          cases j with
          | zero =>
            refine ⟨by simpa using hnosucc, by simpa using hnfat, ?_, ?_⟩
            · rw [hc3, hcT] at *
              simp only [cntIdx_succ, cntIdx_zero] at *
              omega
            · simp only [cntIdx_succ, cntIdx_zero]
              omega
          | succ m =>
            obtain ⟨m1, m2, m3, m4⟩ := hmid m (by omega)
            have hx : i + 1 + m = i + (m + 1) := by omega
            rw [hx] at m1 m2
            refine ⟨m1, m2, ?_, ?_⟩
            · have q3 : cntIdx is503 p i (m + 1 + 1)
                  = cntIdx is503 p (i + 1) (m + 1) + (if is503 (p i) then 1 else 0) :=
                cntIdx_succ is503 p i (m + 1)
              have qT : cntIdx isTio p i (m + 1 + 1)
                  = cntIdx isTio p (i + 1) (m + 1) + (if isTio (p i) then 1 else 0) :=
                cntIdx_succ isTio p i (m + 1)
              rw [e3, eT] at m3
              omega
            · have q4 : cntIdx is504 p i (m + 1 + 1)
                  = cntIdx is504 p (i + 1) (m + 1) + (if is504 (p i) then 1 else 0) :=
                cntIdx_succ is504 p i (m + 1)
              rw [e4] at m4
              omega

theorem set_remote_ip_remote_ip (e : PoolEntry) (b : Bool) (v : String) :
    (set_remote_ip e b v).remote_ip = v := by
  unfold set_remote_ip
  split
  · next h => exact h.symm
  · rfl

theorem send_request_fields (entry : PoolEntry) (sA lA : Bool) (now itv : Nat)
    (pIp : Option String) (port : Nat) (res : List AddrInfo)
    (p : Nat → AttemptResult) (h0 : String → Option String) (d0 : String) :
    (send_request entry sA lA now itv pIp port res p h0 d0).rc
        = (callLoop entry now pIp port res p h0 d0).rc ∧
    (send_request entry sA lA now itv pIp port res p h0 d0).lastStatus
        = (callLoop entry now pIp port res p h0 d0).lastStatus ∧
    (send_request entry sA lA now itv pIp port res p h0 d0).num503
        = (callLoop entry now pIp port res p h0 d0).num503 ∧
    (send_request entry sA lA now itv pIp port res p h0 d0).num504
        = (callLoop entry now pIp port res p h0 d0).num504 ∧
    (send_request entry sA lA now itv pIp port res p h0 d0).num_timeouts_or_io_errors
        = (callLoop entry now pIp port res p h0 d0).num_timeouts_or_io_errors ∧
    (send_request entry sA lA now itv pIp port res p h0 d0).attempts
        = (callLoop entry now pIp port res p h0 d0).attempts ∧
    (send_request entry sA lA now itv pIp port res p h0 d0).blacklisted
        = (callLoop entry now pIp port res p h0 d0).blacklisted ∧
    (send_request entry sA lA now itv pIp port res p h0 d0).abortReason
        = (callLoop entry now pIp port res p h0 d0).abortReason ∧
    (send_request entry sA lA now itv pIp port res p h0 d0).headers
        = (callLoop entry now pIp port res p h0 d0).headers ∧
    (send_request entry sA lA now itv pIp port res p h0 d0).doc
        = (callLoop entry now pIp port res p h0 d0).doc ∧
    (send_request entry sA lA now itv pIp port res p h0 d0).code
        = curl_code_to_http_code (callLoop entry now pIp port res p h0 d0).rc
            (callLoop entry now pIp port res p h0 d0).lastStatus ∧
    (send_request entry sA lA now itv pIp port res p h0 d0).penaltyCalls
        = (if (2 ≤ (callLoop entry now pIp port res p h0 d0).num503 ∨
               1 ≤ (callLoop entry now pIp port res p h0 d0).num504) ∧ lA = true
           then 1 else 0) := by
  refine ⟨rfl, rfl, rfl, rfl, rfl, rfl, rfl, rfl, rfl, rfl, rfl, rfl⟩

theorem send_request_entry_remote_ip (entry : PoolEntry) (sA lA : Bool)
    (now itv : Nat) (pIp : Option String) (port : Nat) (res : List AddrInfo)
    (p : Nat → AttemptResult) (h0 : String → Option String) (d0 : String) :
    (send_request entry sA lA now itv pIp port res p h0 d0).entry.remote_ip
      = (if (callLoop entry now pIp port res p h0 d0).rc = CurlCode.ok then
           (callLoop entry now pIp port res p h0 d0).remoteIp.getD ""
         else "") := by
  have hrfl : (send_request entry sA lA now itv pIp port res p h0 d0).entry
      = (if (callLoop entry now pIp port res p h0 d0).rc = CurlCode.ok then
           set_remote_ip
             (if (callLoop entry now pIp port res p h0 d0).deadlineUpdated then
                { entry with
                  deadline_ms := update_deadline entry.deadline_ms now itv }
              else entry) sA
             ((callLoop entry now pIp port res p h0 d0).remoteIp.getD "")
         else
           set_remote_ip
             (if (callLoop entry now pIp port res p h0 d0).deadlineUpdated then
                { entry with
                  deadline_ms := update_deadline entry.deadline_ms now itv }
              else entry) sA "") := rfl
  rw [hrfl]
  by_cases h : (callLoop entry now pIp port res p h0 d0).rc = CurlCode.ok
  · rw [if_pos h, if_pos h, set_remote_ip_remote_ip]
  · rw [if_neg h, if_neg h, set_remote_ip_remote_ip]

theorem stickyReorder_expired (primaryIp : Option String) (port : Nat)
    (ts : List AddrInfo) : stickyReorder true primaryIp port ts = ts := rfl

theorem stickyReorder_no_ip (port : Nat) (ts : List AddrInfo) :
    stickyReorder false none port ts = ts := rfl

theorem stickyReorder_mem (ip : String) (port : Nat) (ts : List AddrInfo)
    (h : (⟨ip, effectivePort port, IPPROTO_TCP⟩ : AddrInfo) ∈ ts) :
    stickyReorder false (some ip) port ts
      = (⟨ip, effectivePort port, IPPROTO_TCP⟩ : AddrInfo) ::
        ts.filter (fun t => decide (t ≠ (⟨ip, effectivePort port, IPPROTO_TCP⟩ : AddrInfo))) := by
  have hlt : (ts.filter
      (fun t => decide (t ≠ (⟨ip, effectivePort port, IPPROTO_TCP⟩ : AddrInfo)))).length
      < ts.length := by
    rw [List.length_filter_lt_length_iff_exists]
    exact ⟨_, h, by simp⟩
  simp only [decide_not] at hlt
  simp [stickyReorder]
  intro hle
  omega

theorem stickyReorder_not_mem (ip : String) (port : Nat) (ts : List AddrInfo)
    (h : (⟨ip, effectivePort port, IPPROTO_TCP⟩ : AddrInfo) ∉ ts) :
    stickyReorder false (some ip) port ts = ts := by
  unfold stickyReorder
  have heq : ts.filter
      (fun t => decide (t ≠ (⟨ip, effectivePort port, IPPROTO_TCP⟩ : AddrInfo))) = ts := by
    rw [List.filter_eq_self]
    intro a ha
    simp only [decide_eq_true_eq]
    intro hav
    exact h (hav ▸ ha)
  simp only [heq]
  simp

theorem cloneSingle_ne_nil (ts : List AddrInfo) (h : ts ≠ []) :
    cloneSingle ts ≠ [] := by
  cases ts with
  | nil => exact absurd rfl h
  | cons a l =>
    cases l with
    | nil => simp [cloneSingle]
    | cons b m => simp [cloneSingle]

theorem stickyReorder_ne_nil (recycle : Bool) (pIp : Option String) (port : Nat)
    (ts : List AddrInfo) (h : ts ≠ []) :
    stickyReorder recycle pIp port ts ≠ [] := by
  unfold stickyReorder
  split
  · exact h
  · cases pIp with
    | none => exact h
    | some ip =>
      simp only []
      split
      · simp
      · exact h

theorem assembleTargets_ne_nil (recycle : Bool) (pIp : Option String) (port : Nat)
    (ts : List AddrInfo) (h : ts ≠ []) :
    assembleTargets recycle pIp port ts ≠ [] :=
  cloneSingle_ne_nil _ (stickyReorder_ne_nil recycle pIp port ts h)

theorem cloneSingle_length_one (ts : List AddrInfo) (h : ts.length = 1) :
    (cloneSingle ts).length = 2 := by
  cases ts with
  | nil => simp at h
  | cons a l =>
    cases l with
    | nil => simp [cloneSingle]
    | cons b m => simp at h

theorem stickyReorder_length_one (recycle : Bool) (pIp : Option String) (port : Nat)
    (ts : List AddrInfo) (h : ts.length = 1) :
    (stickyReorder recycle pIp port ts).length = 1 := by
  unfold stickyReorder
  split
  · exact h
  · cases pIp with
    | none => exact h
    | some ip =>
      simp only []
      split
      · next hlt =>
        have := List.length_filter_le
          (fun t => decide (t ≠ (⟨ip, effectivePort port, IPPROTO_TCP⟩ : AddrInfo))) ts
        simp only [List.length_cons]
        omega
      · exact h

theorem assembleTargets_length_one (recycle : Bool) (pIp : Option String)
    (port : Nat) (ts : List AddrInfo) (h : ts.length = 1) :
    (assembleTargets recycle pIp port ts).length = 2 :=
  cloneSingle_length_one _ (stickyReorder_length_one recycle pIp port ts h)

theorem mem_cloneSingle (x : AddrInfo) (ts : List AddrInfo)
    (h : x ∈ cloneSingle ts) : x ∈ ts := by
  cases ts with
  | nil => simp [cloneSingle] at h
  | cons a l =>
    cases l with
    | nil => simpa [cloneSingle] using by simpa [cloneSingle] using h
    | cons b m => exact h

theorem mem_stickyReorder (x : AddrInfo) (recycle : Bool) (pIp : Option String)
    (port : Nat) (ts : List AddrInfo) (h : x ∈ stickyReorder recycle pIp port ts) :
    x ∈ ts ∨ ∃ s, pIp = some s ∧ x = (⟨s, effectivePort port, IPPROTO_TCP⟩ : AddrInfo) := by
  unfold stickyReorder at h
  by_cases hr : recycle
  · rw [if_pos hr] at h
    exact Or.inl h
  · rw [if_neg hr] at h
    cases pIp with
    | none => exact Or.inl h
    | some ip =>
      simp only [] at h
      by_cases hlt : (ts.filter
          (fun t => decide (t ≠ (⟨ip, effectivePort port, IPPROTO_TCP⟩ : AddrInfo)))).length
          < ts.length
      · rw [if_pos hlt] at h
        rcases List.mem_cons.mp h with hx | hx
        · exact Or.inr ⟨ip, rfl, hx⟩
        · exact Or.inl (List.mem_of_mem_filter hx)
      · rw [if_neg hlt] at h
        exact Or.inl h

theorem head?_take (ts : List AddrInfo) (k : Nat) (h : 1 ≤ k) :
    (ts.take k).head? = ts.head? := by
  cases ts with
  | nil => simp
  | cons a l =>
    cases k with
    | zero => omega
    | succ n => simp

theorem foldl_write_headers_lookup :
    ∀ (ls : List String) (m : String → Option String) (q : String),
      (ls.foldl write_headers m) q
        = (match (ls.filter (fun l => decide (normKey l = q))).getLast? with
           | some l => some (normVal l)
           | none => m q) := by
  intro ls
  induction ls with
  | nil => intro m q; rfl
  | cons l ls ihl =>
    intro m q
    rw [List.foldl_cons, ihl]
    by_cases hk : normKey l = q
    · rw [List.filter_cons_of_pos (by simpa using hk)]
      cases hf : ls.filter (fun x => decide (normKey x = q)) with
      | nil =>
        simp [write_headers, hk]
      | cons x xs =>
        rw [getLast?_cons_of_ne_nil l (x :: xs) (by simp)]
        cases hg : (x :: xs).getLast? with
        | some y => simp [hg]
        | none => simp at hg
    · rw [List.filter_cons_of_neg (by simpa using hk)]
      cases hf : (ls.filter (fun x => decide (normKey x = q))).getLast? with
      | some l2 => simp [hf]
      | none =>
        simp only [hf, write_headers]
        rw [if_neg (fun hq => hk hq.symm)]

theorem assembleTargets_nil (recycle : Bool) (pIp : Option String) (port : Nat) :
    assembleTargets recycle pIp port [] = [] := by
  unfold assembleTargets stickyReorder
  split
  · rfl
  · cases pIp with
    | none => rfl
    | some ip => simp [cloneSingle]

theorem callLoop_nil_res (entry : PoolEntry) (now : Nat) (pIp : Option String)
    (port : Nat) (p : Nat → AttemptResult) (h0 : String → Option String)
    (d0 : String) :
    callLoop entry now pIp port [] p h0 d0 = initSt h0 d0 := by
  unfold callLoop
  rw [assembleTargets_nil]
  rfl

/-- C1: send_request never propagates a raw transport error: it always
returns a numeric HTTPCode, determined by the transport result of the final
attempt by the table of curl_code_to_http_code.  On transport success the
wire status is returned; remote-file-not-found and the resolve/connect
family (which in the source also carries CURLE_AGAIN) map to 404;
URL-malformed (together with NOT_BUILT_IN, the second member of its source
case) maps to 400; every remaining transport failure maps to 500.  With
zero resolver targets no attempt and no blacklist call is made and the
returned status is 404. -/
theorem C1_code_mapping (entry : PoolEntry) (sA lA : Bool) (now itv : Nat)
    (pIp : Option String) (port : Nat) (res : List AddrInfo)
    (p : Nat → AttemptResult) (h0 : String → Option String) (d0 : String)
    (o : SendOutcome)
    (ho : o = send_request entry sA lA now itv pIp port res p h0 d0) :
    o.code = curl_code_to_http_code o.rc o.lastStatus ∧
    (o.attempts = [] → o.rc = CurlCode.couldntResolveHost) ∧
    (o.attempts ≠ [] → o.rc = (p (o.attempts.length - 1)).rc ∧
      o.lastStatus = (p (o.attempts.length - 1)).status) ∧
    (o.rc = CurlCode.ok → o.code = o.lastStatus) ∧
    ((o.rc = CurlCode.remoteFileNotFound ∨ o.rc = CurlCode.couldntResolveProxy ∨
      o.rc = CurlCode.couldntResolveHost ∨ o.rc = CurlCode.couldntConnect ∨
      o.rc = CurlCode.again) → o.code = 404) ∧
    ((o.rc = CurlCode.urlMalformat ∨ o.rc = CurlCode.notBuiltIn) → o.code = 400) ∧
    ((o.rc = CurlCode.remoteAccessDenied ∨ o.rc = CurlCode.operationTimedout ∨
      o.rc = CurlCode.sendError ∨ o.rc = CurlCode.recvError ∨
      o.rc = CurlCode.otherError) → o.code = 500) ∧
    (res = [] → o.code = 404 ∧ o.attempts = [] ∧ o.blacklisted = [] ∧
      o.penaltyCalls = 0) := by
  subst ho
  obtain ⟨frc, fls, f503, f504, ftio, fatt, fbl, fab, fhd, fdoc, fcode, fpen⟩ :=
    send_request_fields entry sA lA now itv pIp port res p h0 d0
  obtain ⟨k, hkle, hatt, hne, hk0, h503, h504, htio, hfin, hbl, hhd, hexit, habort,
    hmid⟩ :=
    attemptLoop_facts (is_connection_expired entry.deadline_ms now) p
      (assembleTargets (is_connection_expired entry.deadline_ms now) pIp port res) 0
      (initSt h0 d0) (callLoop entry now pIp port res p h0 d0) rfl rfl
      (by simp [initSt]) rfl
  have hattInit : (initSt h0 d0).attempts = [] := rfl
  refine ⟨by rw [fcode, frc, fls], ?_, ?_, ?_, ?_, ?_, ?_, ?_⟩
  · intro hA
    rw [fatt, hatt, hattInit] at hA
    simp only [List.nil_append] at hA
    rcases List.take_eq_nil_iff.mp hA with hK | hT
    · rw [frc, hk0 hK]
      rfl
    · have : k = 0 := by
        rw [hT] at hkle
        simpa using hkle
      rw [frc, hk0 this]
      rfl
  · intro hA
    have hk1 : 1 ≤ k := by
      by_contra hcon
      have : k = 0 := by omega
      apply hA
      rw [fatt, hatt, hattInit, this]
      simp
    obtain ⟨hr, hl, -, -⟩ := hfin hk1
    have h0k : 0 + k - 1 = k - 1 := by omega
    rw [h0k] at hr hl
    have hlen : (send_request entry sA lA now itv pIp port res p h0 d0).attempts.length
        = k := by
      rw [fatt, hatt, hattInit]
      simp only [List.nil_append, List.length_take]
      omega
    rw [hlen, frc, fls]
    exact ⟨hr, hl⟩
  · intro h
    rw [fcode, fls]
    rw [frc] at h
    rw [h]
    rfl
  · intro h
    rw [frc] at h
    rw [fcode]
    rcases h with h | h | h | h | h <;> rw [h] <;> rfl
  · intro h
    rw [frc] at h
    rw [fcode]
    rcases h with h | h <;> rw [h] <;> rfl
  · intro h
    rw [frc] at h
    rw [fcode]
    rcases h with h | h | h | h | h <;> rw [h] <;> rfl
  · intro hres
    subst hres
    have hL := callLoop_nil_res entry now pIp port p h0 d0
    refine ⟨?_, ?_, ?_, ?_⟩
    · rw [fcode, hL]
      rfl
    · rw [fatt, hL]
      rfl
    · rw [fbl, hL]
      rfl
    · rw [fpen, hL]
      simp [initSt]

theorem C1_code_mapping_witness :
    (send_request entry0 false false 1 0 none 80 [] perfOk200 noHeaders "").code = 404 ∧
    (send_request entry0 false false 1 0 none 80 [] perfOk200 noHeaders "").attempts
      = [] ∧
    (send_request entry0 false false 1 0 none 80 [] perfOk200 noHeaders "").blacklisted
      = [] ∧
    (send_request entry0 false false 1 0 none 80 [] perfOk200 noHeaders "").penaltyCalls
      = 0 :=
  (C1_code_mapping entry0 false false 1 0 none 80 [] perfOk200 noHeaders "" _
    rfl).2.2.2.2.2.2.2 rfl

/-- C2 counterexample: with two candidates that both fail at connect level,
the call stops without success because the candidate list is exhausted, yet
no abort trail event is emitted — refuting the claim that every
stop-without-success emits a Permanent/Temporary abort event. -/
theorem C2_counterexample :
    (send_request entry0 false false 1 0 none 80 [tgtA, tgtB] perfConnFail noHeaders
      "").rc ≠ CurlCode.ok ∧
    (send_request entry0 false false 1 0 none 80 [tgtA, tgtB] perfConnFail noHeaders
      "").attempts.length = 2 ∧
    (send_request entry0 false false 1 0 none 80 [tgtA, tgtB] perfConnFail noHeaders
      "").abortReason = none := by
  refine ⟨by decide, by decide, by decide⟩

/-- C2 (amended): the loop continues to the next target unless a fatal HTTP
error just occurred, cumulative 503 + timeout/IO reaches 2, cumulative 504
reaches 1, or the list is exhausted; the abort trail event is emitted
exactly when it stops early through the first three conditions, tagged
Permanent precisely when the stop was a fatal HTTP error; mere exhaustion of
the candidate list emits no abort event. -/
theorem C2_stop_and_abort (entry : PoolEntry) (sA lA : Bool) (now itv : Nat)
    (pIp : Option String) (port : Nat) (res : List AddrInfo)
    (p : Nat → AttemptResult) (h0 : String → Option String) (d0 : String)
    (o : SendOutcome)
    (ho : o = send_request entry sA lA now itv pIp port res p h0 d0) :
    (o.abortReason = none →
      o.num503 + o.num_timeouts_or_io_errors ≤ 1 ∧ o.num504 = 0 ∧
      (attemptSuccess o.rc o.lastStatus ∨
        o.attempts.length = (assembleTargets (is_connection_expired entry.deadline_ms
          now) pIp port res).length)) ∧
    (∀ a, o.abortReason = some a →
      ¬ attemptSuccess o.rc o.lastStatus ∧
      (attemptFatal o.rc o.lastStatus ∨ 2 ≤ o.num503 + o.num_timeouts_or_io_errors ∨
        1 ≤ o.num504) ∧
      (a = HttpErrorResponseTypes.Permanent ↔ attemptFatal o.rc o.lastStatus)) ∧
    (∀ j, j + 1 < o.attempts.length →
      ¬ attemptSuccess (p j).rc (p j).status ∧
      ¬ attemptFatal (p j).rc (p j).status ∧
      cntIdx is503 p 0 (j + 1) + cntIdx isTio p 0 (j + 1) ≤ 1 ∧
      cntIdx is504 p 0 (j + 1) = 0) := by
  subst ho
  obtain ⟨frc, fls, f503, f504, ftio, fatt, fbl, fab, fhd, fdoc, fcode, fpen⟩ :=
    send_request_fields entry sA lA now itv pIp port res p h0 d0
  obtain ⟨k, hkle, hatt, hne, hk0, h503, h504, htio, hfin, hbl, hhd, hexit, habort,
    hmid⟩ :=
    attemptLoop_facts (is_connection_expired entry.deadline_ms now) p
      (assembleTargets (is_connection_expired entry.deadline_ms now) pIp port res) 0
      (initSt h0 d0) (callLoop entry now pIp port res p h0 d0) rfl rfl
      (by simp [initSt]) rfl
  have hlen : (send_request entry sA lA now itv pIp port res p h0 d0).attempts.length
      = k := by
    rw [fatt, hatt]
    simp only [initSt, List.nil_append, List.length_take]
    omega
  refine ⟨?_, ?_, ?_⟩
  · intro h
    rw [fab] at h
    obtain ⟨b1, b2, bs⟩ := hexit h
    refine ⟨by rw [f503, ftio]; exact b1, by rw [f504]; exact b2, ?_⟩
    rcases bs with bs | bs
    · exact Or.inl (by rw [frc, fls]; exact bs)
    · exact Or.inr (by rw [hlen]; exact bs)
  · intro a ha
    rw [fab] at ha
    obtain ⟨n1, n2, n3⟩ := habort a ha
    refine ⟨by rw [frc, fls]; exact n1, ?_, by rw [frc, fls]; exact n3⟩
    rcases n2 with n2 | n2 | n2
    · exact Or.inl (by rw [frc, fls]; exact n2)
    · exact Or.inr (Or.inl (by rw [f503, ftio]; exact n2))
    · exact Or.inr (Or.inr (by rw [f504]; exact n2))
  · intro j hj
    rw [hlen] at hj
    obtain ⟨m1, m2, m3, m4⟩ := hmid j hj
    rw [Nat.zero_add] at m1 m2
    refine ⟨m1, m2, ?_, ?_⟩
    · simpa [initSt] using m3
    · simpa [initSt] using m4

theorem C2_stop_and_abort_witness :
    ¬ attemptSuccess
      (send_request entry0 false false 1 0 none 80 [tgtA, tgtB] perfFatal400
        noHeaders "").rc
      (send_request entry0 false false 1 0 none 80 [tgtA, tgtB] perfFatal400
        noHeaders "").lastStatus :=
  ((C2_stop_and_abort entry0 false false 1 0 none 80 [tgtA, tgtB] perfFatal400
      noHeaders "" _ rfl).2.1 HttpErrorResponseTypes.Permanent (by decide)).1

/-- C3: with a load monitor attached, incr_penalties is called exactly once
after the loop precisely when the call saw at least two 503 responses or at
least one 504 response; without a load monitor it is never called.  The 503
and 504 counters are exactly the number of attempts whose wire status was
503 resp. 504. -/
theorem C3_penalties (entry : PoolEntry) (sA lA : Bool) (now itv : Nat)
    (pIp : Option String) (port : Nat) (res : List AddrInfo)
    (p : Nat → AttemptResult) (h0 : String → Option String) (d0 : String)
    (o : SendOutcome)
    (ho : o = send_request entry sA lA now itv pIp port res p h0 d0) :
    o.penaltyCalls ≤ 1 ∧
    (lA = true → (o.penaltyCalls = 1 ↔ (2 ≤ o.num503 ∨ 1 ≤ o.num504))) ∧
    (lA = true → 2 ≤ o.num503 → o.penaltyCalls = 1) ∧
    (lA = false → o.penaltyCalls = 0) ∧
    o.num503 = cntIdx is503 p 0 o.attempts.length ∧
    o.num504 = cntIdx is504 p 0 o.attempts.length := by
  subst ho
  obtain ⟨frc, fls, f503, f504, ftio, fatt, fbl, fab, fhd, fdoc, fcode, fpen⟩ :=
    send_request_fields entry sA lA now itv pIp port res p h0 d0
  obtain ⟨k, hkle, hatt, hne, hk0, h503, h504, htio, hfin, hbl, hhd, hexit, habort,
    hmid⟩ :=
    attemptLoop_facts (is_connection_expired entry.deadline_ms now) p
      (assembleTargets (is_connection_expired entry.deadline_ms now) pIp port res) 0
      (initSt h0 d0) (callLoop entry now pIp port res p h0 d0) rfl rfl
      (by simp [initSt]) rfl
  have hlen : (send_request entry sA lA now itv pIp port res p h0 d0).attempts.length
      = k := by
    rw [fatt, hatt]
    simp only [initSt, List.nil_append, List.length_take]
    omega
  refine ⟨?_, ?_, ?_, ?_, ?_, ?_⟩
  · rw [fpen]
    split <;> omega
  · intro hlA
    rw [fpen, f503, f504, hlA]
    by_cases hc : 2 ≤ (callLoop entry now pIp port res p h0 d0).num503 ∨
        1 ≤ (callLoop entry now pIp port res p h0 d0).num504
    · simp [hc]
    · simp [hc]
  · intro hlA hge
    rw [f503] at hge
    rw [fpen, hlA]
    rw [if_pos ⟨Or.inl hge, rfl⟩]
  · intro hlA
    rw [fpen, hlA]
    simp
  · rw [f503, h503, hlen]
    simp [initSt]
  · rw [f504, h504, hlen]
    simp [initSt]

theorem C3_penalties_witness :
    (send_request entry0 false true 1 0 none 80 [tgtA, tgtB] perf503 noHeaders
      "").penaltyCalls = 1 :=
  (C3_penalties entry0 false true 1 0 none 80 [tgtA, tgtB] perf503 noHeaders ""
    _ rfl).2.2.1 rfl (by decide)

theorem is503_isTio_exclusive (r : AttemptResult) :
    ¬ (is503 r = true ∧ isTio r = true) := by
  rcases r with ⟨rc, status, hl, b⟩
  cases rc <;> simp [is503, isTio, http_rc_of]

/-- C4 counterexample: the resolver returns exactly one candidate, the first
attempt succeeds with a 200, and exactly one transport attempt is made —
refuting "makes at least two transport attempts in total". -/
theorem C4_counterexample :
    ([tgtA] : List AddrInfo).length = 1 ∧
    ¬ (2 ≤ (send_request entry0 false false 1 0 none 80 [tgtA] perfOk200 noHeaders
      "").attempts.length) := by
  refine ⟨rfl, by decide⟩

/-- C4 (amended): a single resolver candidate is duplicated so the assembled
list has length 2; at least one target is attempted whenever the resolver
returns any candidate; and with a single candidate a second attempt is made
whenever the first attempt neither succeeds nor triggers the stopping rule
(a fatal HTTP error or a 504). -/
theorem C4_retry (entry : PoolEntry) (sA lA : Bool) (now itv : Nat)
    (pIp : Option String) (port : Nat) (res : List AddrInfo)
    (p : Nat → AttemptResult) (h0 : String → Option String) (d0 : String)
    (o : SendOutcome)
    (ho : o = send_request entry sA lA now itv pIp port res p h0 d0) :
    (res.length = 1 →
      (assembleTargets (is_connection_expired entry.deadline_ms now) pIp port
        res).length = 2) ∧
    (res ≠ [] → o.attempts ≠ []) ∧
    (res.length = 1 →
      ¬ attemptSuccess (p 0).rc (p 0).status →
      ¬ attemptFatal (p 0).rc (p 0).status →
      is504 (p 0) = false →
      o.attempts.length = 2) := by
  subst ho
  obtain ⟨frc, fls, f503, f504, ftio, fatt, fbl, fab, fhd, fdoc, fcode, fpen⟩ :=
    send_request_fields entry sA lA now itv pIp port res p h0 d0
  obtain ⟨k, hkle, hatt, hne, hk0, h503, h504, htio, hfin, hbl, hhd, hexit, habort,
    hmid⟩ :=
    attemptLoop_facts (is_connection_expired entry.deadline_ms now) p
      (assembleTargets (is_connection_expired entry.deadline_ms now) pIp port res) 0
      (initSt h0 d0) (callLoop entry now pIp port res p h0 d0) rfl rfl
      (by simp [initSt]) rfl
  have hlen : (send_request entry sA lA now itv pIp port res p h0 d0).attempts.length
      = k := by
    rw [fatt, hatt]
    simp only [initSt, List.nil_append, List.length_take]
    omega
  refine ⟨fun h => assembleTargets_length_one _ _ _ _ h, ?_, ?_⟩
  · intro h
    have hts := assembleTargets_ne_nil (is_connection_expired entry.deadline_ms now)
      pIp port res h
    have hk1 := hne hts
    rw [fatt, hatt]
    simp only [initSt, List.nil_append]
    exact take_ne_nil _ k hk1 (by
      rcases hlist : assembleTargets (is_connection_expired entry.deadline_ms now)
          pIp port res with - | ⟨a, l⟩
      · exact absurd hlist hts
      · simp)
  · intro hres hns hnf h504f
    have hts2 : (assembleTargets (is_connection_expired entry.deadline_ms now) pIp
        port res).length = 2 := assembleTargets_length_one _ _ _ _ hres
    have hk1 : 1 ≤ k := hne (by
      intro hnil
      rw [hnil] at hts2
      simp at hts2)
    have hcnt3 : cntIdx is503 p 0 1 = (if is503 (p 0) then 1 else 0) := by
      rw [cntIdx_succ, cntIdx_zero]
      omega
    have hcnt4 : cntIdx is504 p 0 1 = (if is504 (p 0) then 1 else 0) := by
      rw [cntIdx_succ, cntIdx_zero]
      omega
    have hcntT : cntIdx isTio p 0 1 = (if isTio (p 0) then 1 else 0) := by
      rw [cntIdx_succ, cntIdx_zero]
      omega
    have hknot1 : k ≠ 1 := by
      intro hk
      subst hk
      obtain ⟨hr, hl, -, -⟩ := hfin (Nat.le_refl 1)
      simp only [Nat.zero_add, Nat.sub_self] at hr hl
      cases hA : (callLoop entry now pIp port res p h0 d0).abortReason with
      | none =>
        obtain ⟨-, -, bs⟩ := hexit hA
        rcases bs with bs | bs
        · rw [hr, hl] at bs
          exact hns bs
        · rw [hts2] at bs
          omega
      | some a =>
        obtain ⟨-, hd, -⟩ := habort a hA
        rcases hd with hd | hd | hd
        · rw [hr, hl] at hd
          exact hnf hd
        · rw [h503, htio, hcnt3, hcntT] at hd
          have hexcl := is503_isTio_exclusive (p 0)
          simp only [initSt] at hd
          by_cases ha : is503 (p 0) = true <;> by_cases hb : isTio (p 0) = true
          · exact hexcl ⟨ha, hb⟩
          · simp [ha, hb] at hd
          · simp [ha, hb] at hd
          · simp [ha, hb] at hd
        · rw [h504, hcnt4] at hd
          simp only [initSt, h504f] at hd
          simp at hd
    rw [hlen]
    omega

theorem C4_retry_witness :
    (send_request entry0 false false 1 0 none 80 [tgtA] perfTimeoutThenOk noHeaders
      "").attempts.length = 2 :=
  (C4_retry entry0 false false 1 0 none 80 [tgtA] perfTimeoutThenOk noHeaders ""
    _ rfl).2.2 rfl (by decide) (by decide) (by decide)

theorem blacklistedExpected_false_recycle (p : Nat → AttemptResult) :
    ∀ (i : Nat) (ts : List AddrInfo), blacklistedExpected false p i ts = [] := by
  intro i ts
  induction ts generalizing i with
  | nil => rfl
  | cons t rest ihb => simp [blacklistedExpected, blacklistCondB, ihb]

/-- C5 counterexample: on a forced-fresh connection an attempt that fails
with an operation timeout — a timeout/IO outcome, not a connect-level
failure — does get its target blacklisted, refuting the claim that
timeout/IO failures are never blacklisted. -/
theorem C5_counterexample :
    (perfTimeoutThenOk 0).rc = CurlCode.operationTimedout ∧
    (send_request entry0 false false 1 0 none 80 [tgtA, tgtB] perfTimeoutThenOk
      noHeaders "").blacklisted = [tgtA] := by
  refine ⟨by decide, by decide⟩

/-- C5 (amended): resolver.blacklist is called for exactly the attempts made
on a forced-fresh connection whose transport result was a failure (rc not
CURLE_OK) other than remote-file-not-found or remote-access-denied —
including timeouts and send/receive errors; never when the transport
exchange succeeded (whatever the HTTP status) and never on a reused
connection. -/
theorem C5_blacklist (entry : PoolEntry) (sA lA : Bool) (now itv : Nat)
    (pIp : Option String) (port : Nat) (res : List AddrInfo)
    (p : Nat → AttemptResult) (h0 : String → Option String) (d0 : String)
    (o : SendOutcome)
    (ho : o = send_request entry sA lA now itv pIp port res p h0 d0) :
    o.blacklisted = blacklistedExpected (is_connection_expired entry.deadline_ms now)
      p 0 o.attempts ∧
    (is_connection_expired entry.deadline_ms now = false → o.blacklisted = []) := by
  subst ho
  obtain ⟨frc, fls, f503, f504, ftio, fatt, fbl, fab, fhd, fdoc, fcode, fpen⟩ :=
    send_request_fields entry sA lA now itv pIp port res p h0 d0
  obtain ⟨k, hkle, hatt, hne, hk0, h503, h504, htio, hfin, hbl, hhd, hexit, habort,
    hmid⟩ :=
    attemptLoop_facts (is_connection_expired entry.deadline_ms now) p
      (assembleTargets (is_connection_expired entry.deadline_ms now) pIp port res) 0
      (initSt h0 d0) (callLoop entry now pIp port res p h0 d0) rfl rfl
      (by simp [initSt]) rfl
  have hmain : (send_request entry sA lA now itv pIp port res p h0 d0).blacklisted
      = blacklistedExpected (is_connection_expired entry.deadline_ms now) p 0
          (send_request entry sA lA now itv pIp port res p h0 d0).attempts := by
    rw [fbl, hbl, fatt, hatt]
    simp [initSt]
  refine ⟨hmain, ?_⟩
  intro h
  rw [hmain, h, blacklistedExpected_false_recycle]

theorem C5_blacklist_witness :
    (send_request entry0 false false 1 0 none 80 [tgtA, tgtB] perfTimeoutThenOk
      noHeaders "").blacklisted
      = blacklistedExpected true perfTimeoutThenOk 0
          (send_request entry0 false false 1 0 none 80 [tgtA, tgtB] perfTimeoutThenOk
            noHeaders "").attempts := by
  have h := (C5_blacklist entry0 false false 1 0 none 80 [tgtA, tgtB]
    perfTimeoutThenOk noHeaders "" _ rfl).1
  have e : is_connection_expired entry0.deadline_ms 1 = true := by decide
  rw [e] at h
  exact h

/-- C6 counterexample: the cache entry's peer IP 10.0.0.1 matches the
address of the second target, but that target's port (8080) differs from the
connection's configured port (9090), so the executor leaves the list order
unchanged — refuting the claim that an address match alone moves the target
to position 0. -/
theorem C6_counterexample :
    tgtP2 ∈ [tgtP1, tgtP2] ∧
    tgtP2.addr = "10.0.0.1" ∧
    stickyReorder false (some "10.0.0.1") 9090 [tgtP1, tgtP2] = [tgtP1, tgtP2] ∧
    (stickyReorder false (some "10.0.0.1") 9090 [tgtP1, tgtP2]).head? = some tgtP1 := by
  refine ⟨by decide, by decide, by decide, by decide⟩

/-- C6 (amended): when the connection is not expired and the peer IP is
available, the executor builds the sticky candidate from the peer IP with
the connection's configured port (80 when the port is 0) and TCP transport;
if a target equal to that whole tuple is in the list, every copy of it is
erased and one copy re-inserted at position 0, and otherwise (in particular
when only the address matches) the order is unchanged; when the connection
is expired, or the peer IP is unavailable, no reordering is performed.  The
first attempted target of a call is the head of the assembled list. -/
theorem C6_sticky (ip : String) (sport : Nat) (ts : List AddrInfo)
    (entry : PoolEntry) (sA lA : Bool) (now itv : Nat) (pIp : Option String)
    (port : Nat) (res : List AddrInfo) (p : Nat → AttemptResult)
    (h0 : String → Option String) (d0 : String) (o : SendOutcome)
    (ho : o = send_request entry sA lA now itv pIp port res p h0 d0) :
    stickyReorder true (some ip) sport ts = ts ∧
    stickyReorder false none sport ts = ts ∧
    ((⟨ip, effectivePort sport, IPPROTO_TCP⟩ : AddrInfo) ∈ ts →
      stickyReorder false (some ip) sport ts
        = (⟨ip, effectivePort sport, IPPROTO_TCP⟩ : AddrInfo) ::
            ts.filter (fun t =>
              decide (t ≠ (⟨ip, effectivePort sport, IPPROTO_TCP⟩ : AddrInfo)))) ∧
    ((⟨ip, effectivePort sport, IPPROTO_TCP⟩ : AddrInfo) ∉ ts →
      stickyReorder false (some ip) sport ts = ts) ∧
    (res ≠ [] → o.attempts.head?
        = (assembleTargets (is_connection_expired entry.deadline_ms now) pIp port
            res).head?) := by
  subst ho
  obtain ⟨frc, fls, f503, f504, ftio, fatt, fbl, fab, fhd, fdoc, fcode, fpen⟩ :=
    send_request_fields entry sA lA now itv pIp port res p h0 d0
  obtain ⟨k, hkle, hatt, hne, hk0, h503, h504, htio, hfin, hbl, hhd, hexit, habort,
    hmid⟩ :=
    attemptLoop_facts (is_connection_expired entry.deadline_ms now) p
      (assembleTargets (is_connection_expired entry.deadline_ms now) pIp port res) 0
      (initSt h0 d0) (callLoop entry now pIp port res p h0 d0) rfl rfl
      (by simp [initSt]) rfl
  refine ⟨stickyReorder_expired (some ip) sport ts, stickyReorder_no_ip sport ts,
    fun h => stickyReorder_mem ip sport ts h,
    fun h => stickyReorder_not_mem ip sport ts h, ?_⟩
  intro h
  have hk1 := hne (assembleTargets_ne_nil _ _ _ _ h)
  rw [fatt, hatt]
  simp only [initSt, List.nil_append]
  exact head?_take _ k hk1

theorem C6_sticky_witness :
    stickyReorder false (some "10.0.0.1") 80 [tgtB, tgtA]
      = (⟨"10.0.0.1", effectivePort 80, IPPROTO_TCP⟩ : AddrInfo) ::
          [tgtB, tgtA].filter (fun t =>
            decide (t ≠ (⟨"10.0.0.1", effectivePort 80, IPPROTO_TCP⟩ : AddrInfo))) :=
  (C6_sticky "10.0.0.1" 80 [tgtB, tgtA] entry0 false false 1 0 none 80 [tgtA]
    perfOk200 noHeaders "" _ rfl).2.2.1 (by decide)

/-- C7: on return the cache entry's remote_ip equals the address of the last
attempted target exactly when the final transport exchange succeeded
(rc = CURLE_OK), and is reset to the empty string otherwise; the equivalence
direction uses that resolver addresses and the parsed peer IP are non-empty
strings. -/
theorem C7_remote_ip (entry : PoolEntry) (sA lA : Bool) (now itv : Nat)
    (pIp : Option String) (port : Nat) (res : List AddrInfo)
    (p : Nat → AttemptResult) (h0 : String → Option String) (d0 : String)
    (haddr : ∀ t ∈ res, t.addr ≠ "") (hip : pIp ≠ some "")
    (o : SendOutcome)
    (ho : o = send_request entry sA lA now itv pIp port res p h0 d0) :
    (o.rc = CurlCode.ok → o.attempts ≠ [] ∧
      some o.entry.remote_ip = (o.attempts.getLast?).map AddrInfo.addr) ∧
    (o.rc ≠ CurlCode.ok → o.entry.remote_ip = "") ∧
    (o.entry.remote_ip ≠ "" ↔ o.rc = CurlCode.ok) := by
  subst ho
  obtain ⟨frc, fls, f503, f504, ftio, fatt, fbl, fab, fhd, fdoc, fcode, fpen⟩ :=
    send_request_fields entry sA lA now itv pIp port res p h0 d0
  obtain ⟨k, hkle, hatt, hne, hk0, h503, h504, htio, hfin, hbl, hhd, hexit, habort,
    hmid⟩ :=
    attemptLoop_facts (is_connection_expired entry.deadline_ms now) p
      (assembleTargets (is_connection_expired entry.deadline_ms now) pIp port res) 0
      (initSt h0 d0) (callLoop entry now pIp port res p h0 d0) rfl rfl
      (by simp [initSt]) rfl
  have hrem := send_request_entry_remote_ip entry sA lA now itv pIp port res p h0 d0
  have hsucc_part : (send_request entry sA lA now itv pIp port res p h0 d0).rc
      = CurlCode.ok →
      (send_request entry sA lA now itv pIp port res p h0 d0).attempts ≠ [] ∧
      some (send_request entry sA lA now itv pIp port res p h0 d0).entry.remote_ip
        = ((send_request entry sA lA now itv pIp port res p h0 d0).attempts.getLast?).map
            AddrInfo.addr ∧
      (send_request entry sA lA now itv pIp port res p h0 d0).entry.remote_ip ≠ "" := by
    intro h
    rw [frc] at h
    have hk1 : 1 ≤ k := by
      by_contra hcon
      have hk : k = 0 := by omega
      have := hk0 hk
      rw [this] at h
      simp [initSt] at h
    obtain ⟨-, -, -, hri⟩ := hfin hk1
    have htne : (assembleTargets (is_connection_expired entry.deadline_ms now) pIp
        port res).take k ≠ [] := by
      apply take_ne_nil _ k hk1
      rcases hlist : assembleTargets (is_connection_expired entry.deadline_ms now)
          pIp port res with - | ⟨a, l⟩
      · rw [hlist] at hkle
        simp at hkle
        omega
      · simp
    cases hgl : ((assembleTargets (is_connection_expired entry.deadline_ms now) pIp
        port res).take k).getLast? with
    | none => exact absurd (List.getLast?_eq_none_iff.mp hgl) htne
    | some x =>
      rw [hgl] at hri
      have hxmem : x ∈ assembleTargets (is_connection_expired entry.deadline_ms now)
          pIp port res :=
        List.mem_of_mem_take (List.mem_of_getLast?_eq_some hgl)
      have hxaddr : x.addr ≠ "" := by
        have hmem := mem_stickyReorder x (is_connection_expired entry.deadline_ms now)
          pIp port res (mem_cloneSingle x _ hxmem)
        rcases hmem with hmem | ⟨s, hs, hx⟩
        · exact haddr x hmem
        · have hsne : s ≠ "" := by
            intro hcon
            rw [hcon] at hs
            exact hip hs
          rw [hx]
          exact hsne
      have hval : (send_request entry sA lA now itv pIp port res p h0 d0).entry.remote_ip
          = x.addr := by
        rw [hrem, if_pos h, hri]
        rfl
      refine ⟨?_, ?_, ?_⟩
      · rw [fatt, hatt]
        simp only [initSt, List.nil_append]
        exact htne
      · rw [hval, fatt, hatt]
        simp only [initSt, List.nil_append, hgl]
        rfl
      · rw [hval]
        exact hxaddr
  have hfail_part : (send_request entry sA lA now itv pIp port res p h0 d0).rc
      ≠ CurlCode.ok →
      (send_request entry sA lA now itv pIp port res p h0 d0).entry.remote_ip = "" := by
    intro h
    rw [frc] at h
    rw [hrem, if_neg h]
  refine ⟨fun h => ⟨(hsucc_part h).1, (hsucc_part h).2.1⟩, hfail_part, ?_, ?_⟩
  · intro h
    by_contra hcon
    exact h (hfail_part hcon)
  · intro h
    exact (hsucc_part h).2.2

theorem C7_remote_ip_witness :
    some (send_request entry0 false false 1 0 none 80 [tgtA] perfOk200 noHeaders
      "").entry.remote_ip
      = ((send_request entry0 false false 1 0 none 80 [tgtA] perfOk200 noHeaders
          "").attempts.getLast?).map AddrInfo.addr :=
  ((C7_remote_ip entry0 false false 1 0 none 80 [tgtA] perfOk200 noHeaders ""
      (by decide) (by decide) _ rfl).1 (by decide)).2

/-- C8: update_deadline follows the source's two cases and never decreases
the deadline; over an arbitrary sequence of updates (each with its own
current time and non-negative sampled interval, both naturals) the deadline
is monotonically non-decreasing. -/
theorem C8_deadline_monotone (d now itv : Nat) (seq : List (Nat × Nat)) :
    (d = 0 ∨ d + itv < now → update_deadline d now itv = now + itv) ∧
    (¬ (d = 0 ∨ d + itv < now) → update_deadline d now itv = d + itv) ∧
    d ≤ update_deadline d now itv ∧
    d ≤ seq.foldl (fun acc pr => update_deadline acc pr.1 pr.2) d := by
  have hstep : ∀ (a b c : Nat), a ≤ update_deadline a b c := by
    intro a b c
    unfold update_deadline
    split <;> omega
  refine ⟨?_, ?_, hstep d now itv, ?_⟩
  · intro h
    unfold update_deadline
    rw [if_pos h]
  · intro h
    unfold update_deadline
    rw [if_neg h]
  · induction seq generalizing d with
    | nil => exact Nat.le_refl d
    | cons pr rest ihs =>
      rw [List.foldl_cons]
      exact Nat.le_trans (hstep d pr.1 pr.2) (ihs _)

theorem C8_deadline_monotone_witness :
    (5 : Nat) ≤ update_deadline 5 3 2 ∧
    (5 : Nat) ≤ [(7, 1), (2, 4)].foldl (fun acc pr => update_deadline acc pr.1 pr.2) 5 :=
  ⟨(C8_deadline_monotone 5 3 2 []).2.2.1, (C8_deadline_monotone 5 3 2
    [(7, 1), (2, 4)]).2.2.2⟩

theorem set_remote_ip_noop (e : PoolEntry) (b : Bool) (v : String)
    (h : v = e.remote_ip) :
    set_remote_ip e b v = e ∧ set_remote_ip_locks e b v = 0 := by
  unfold set_remote_ip set_remote_ip_locks
  rw [if_pos h, if_pos h]
  exact ⟨rfl, rfl⟩

/-- C9: set_remote_ip is idempotent with respect to the SNMP counters: a
second call with the same non-empty IP is a no-op (state unchanged, no lock
taken), so two consecutive calls with the same value produce a single net
increment of that value's counter. -/
theorem C9_set_remote_ip_idem (e : PoolEntry) (x : String)
    (hx : x ≠ "") (hne : x ≠ e.remote_ip) :
    set_remote_ip (set_remote_ip e true x) true x = set_remote_ip e true x ∧
    set_remote_ip_locks (set_remote_ip e true x) true x = 0 ∧
    (set_remote_ip e true x).table x = e.table x + 1 ∧
    (set_remote_ip (set_remote_ip e true x) true x).table x = e.table x + 1 := by
  have hrip : (set_remote_ip e true x).remote_ip = x := set_remote_ip_remote_ip e true x
  have hnoop := set_remote_ip_noop (set_remote_ip e true x) true x hrip.symm
  have htab : (set_remote_ip e true x).table x = e.table x + 1 := by
    unfold set_remote_ip
    rw [if_neg hne]
    simp only [if_pos trivial]
    unfold update_snmp_ip_counts
    by_cases hold : e.remote_ip ≠ ""
    · simp [hold, hx, hne]
    · simp [hold, hx]
  refine ⟨hnoop.1, hnoop.2, htab, ?_⟩
  rw [hnoop.1]
  exact htab

theorem C9_set_remote_ip_idem_witness :
    (set_remote_ip (set_remote_ip entry0 true "1.2.3.4") true "1.2.3.4").table "1.2.3.4"
      = entry0.table "1.2.3.4" + 1 :=
  (C9_set_remote_ip_idem entry0 "1.2.3.4" (by decide) (by decide)).2.2.2

/-- C10: across the attempts of one call the response-header out-parameter
map is never cleared: its final content is the left fold of write_headers
over all header lines of all attempts starting from the caller's map, so a
key delivered during an earlier (possibly failed) attempt survives unless a
later attempt delivers the same lowercased key (last writer wins), while the
response-body out-parameter is cleared at the start of every attempt and
ends as exactly the final attempt's bytes. -/
theorem C10_headers_persist (entry : PoolEntry) (sA lA : Bool) (now itv : Nat)
    (pIp : Option String) (port : Nat) (res : List AddrInfo)
    (p : Nat → AttemptResult) (h0 : String → Option String) (d0 : String)
    (o : SendOutcome)
    (ho : o = send_request entry sA lA now itv pIp port res p h0 d0) :
    o.headers = (linesOf p 0 o.attempts.length).foldl write_headers h0 ∧
    (∀ q l, ((linesOf p 0 o.attempts.length).filter
        (fun s => decide (normKey s = q))).getLast? = some l →
      o.headers q = some (normVal l)) ∧
    (∀ q, ((linesOf p 0 o.attempts.length).filter
        (fun s => decide (normKey s = q))).getLast? = none →
      o.headers q = h0 q) ∧
    (o.attempts = [] → o.doc = d0) ∧
    (o.attempts ≠ [] → o.doc = (p (o.attempts.length - 1)).body) := by
  subst ho
  obtain ⟨frc, fls, f503, f504, ftio, fatt, fbl, fab, fhd, fdoc, fcode, fpen⟩ :=
    send_request_fields entry sA lA now itv pIp port res p h0 d0
  obtain ⟨k, hkle, hatt, hne, hk0, h503, h504, htio, hfin, hbl, hhd, hexit, habort,
    hmid⟩ :=
    attemptLoop_facts (is_connection_expired entry.deadline_ms now) p
      (assembleTargets (is_connection_expired entry.deadline_ms now) pIp port res) 0
      (initSt h0 d0) (callLoop entry now pIp port res p h0 d0) rfl rfl
      (by simp [initSt]) rfl
  have hlen : (send_request entry sA lA now itv pIp port res p h0 d0).attempts.length
      = k := by
    rw [fatt, hatt]
    simp only [initSt, List.nil_append, List.length_take]
    omega
  have hmain : (send_request entry sA lA now itv pIp port res p h0 d0).headers
      = (linesOf p 0 (send_request entry sA lA now itv pIp port res p h0
          d0).attempts.length).foldl write_headers h0 := by
    rw [fhd, hhd, hlen]
    rfl
  refine ⟨hmain, ?_, ?_, ?_, ?_⟩
  · intro q l hgl
    have := congrFun hmain q
    rw [this, foldl_write_headers_lookup, hgl]
  · intro q hgl
    have := congrFun hmain q
    rw [this, foldl_write_headers_lookup, hgl]
  · intro hA
    have hk : k = 0 := by
      have := hlen
      rw [hA] at this
      simp at this
      omega
    rw [fdoc, hk0 hk]
    rfl
  · intro hA
    have hk1 : 1 ≤ k := by
      by_contra hcon
      have hk : k = 0 := by omega
      apply hA
      rw [fatt, hatt, hk]
      simp [initSt]
    obtain ⟨-, -, hdoc, -⟩ := hfin hk1
    rw [fdoc, hlen]
    rw [Nat.zero_add] at hdoc
    exact hdoc

theorem C10_headers_persist_witness :
    (send_request entry0 false false 1 0 none 80 [tgtA, tgtB] perfHdrs noHeaders
      "").headers "x-first" = some "a" ∧
    (send_request entry0 false false 1 0 none 80 [tgtA, tgtB] perfHdrs noHeaders
      "").doc = "body2" := by
  have h := C10_headers_persist entry0 false false 1 0 none 80 [tgtA, tgtB] perfHdrs
    noHeaders "" _ rfl
  refine ⟨?_, ?_⟩
  · have hx := h.2.1 "x-first" "X-First: a" (by decide)
    rw [hx]
    decide
  · exact (h.2.2.2.2 (by decide)).trans (by decide)
